import Mathlib

/-
Verification development for the ibis BigQuery adapter layer:
a shallow embedding of `ibis/expr/schema.py` and `ibis/bigquery/client.py`.

Python strings are modelled as Lean `String`, Python lists as Lean `List`,
`OrderedDict` as an ordered association list with Python's insertion
semantics, and raised exceptions as `Except` errors.  Functions that live
outside the two source files (the ibis datatype helpers `dt.infer`,
`dt.highest_precedence`, `dt.dtype` on machine dtypes, and pandas'
`infer_dtype`) are taken as parameters of the embedded functions, so the
theorems quantify over their behaviour; the few external helpers that must
be executable (pandas timestamp-string parsing, struct sub-parameter
lookup) are modelled explicitly and documented as such.
-/

set_option autoImplicit false

namespace IbisSpec

/-- The primitive kinds of the ibis type algebra that the two source files
mention. -/
inductive PrimKind where
  | string
  | int64
  | double
  | boolean
  | timestamp
  | date
  | time
  | binary
  | null
  | interval
deriving DecidableEq, Repr

/-- The ibis type algebra (`ibis.expr.datatypes`) restricted to what the
sources use: primitives, `Array(elem)`, and `Struct(names, types)` with
parallel name/type lists exactly as `dt.Struct` takes them.  `unknown s`
represents a warehouse kind string that passes through
`bigquery_field_to_ibis_dtype` unmapped (the importer's
forward-compatibility path returns the raw string). -/
inductive IbisType where
  | prim (k : PrimKind)
  | array (elem : IbisType)
  | structT (names : List String) (types : List IbisType)
  | unknown (s : String)

def IbisType.string : IbisType := .prim .string

def IbisType.int64 : IbisType := .prim .int64

def IbisType.double : IbisType := .prim .double

def IbisType.boolean : IbisType := .prim .boolean

def IbisType.timestamp : IbisType := .prim .timestamp

def IbisType.date : IbisType := .prim .date

def IbisType.time : IbisType := .prim .time

def IbisType.binary : IbisType := .prim .binary

def IbisType.null : IbisType := .prim .null

def IbisType.interval : IbisType := .prim .interval

mutual

/-- Structural equality on ibis types (Python `==` on datatype objects). -/
def IbisType.beq : IbisType → IbisType → Bool
  | .prim k, .prim k2 => decide (k = k2)
  | .prim _, .array _ => false
  | .prim _, .structT _ _ => false
  | .prim _, .unknown _ => false
  | .array _, .prim _ => false
  | .array a, .array b => IbisType.beq a b
  | .array _, .structT _ _ => false
  | .array _, .unknown _ => false
  | .structT _ _, .prim _ => false
  | .structT _ _, .array _ => false
  | .structT ns ts, .structT ms us => decide (ns = ms) && IbisType.beqList ts us
  | .structT _ _, .unknown _ => false
  | .unknown _, .prim _ => false
  | .unknown _, .array _ => false
  | .unknown _, .structT _ _ => false
  | .unknown s, .unknown t => decide (s = t)

/-- Pointwise structural equality on type lists. -/
def IbisType.beqList : List IbisType → List IbisType → Bool
  | [], [] => true
  | [], _ :: _ => false
  | _ :: _, [] => false
  | a :: l, b :: r => IbisType.beq a b && IbisType.beqList l r

end

mutual

theorem IbisType.beq_iff : (a b : IbisType) → (IbisType.beq a b = true ↔ a = b)
  | .prim _, .prim _ => by simp [IbisType.beq]
  | .prim _, .array _ => by simp [IbisType.beq]
  | .prim _, .structT _ _ => by simp [IbisType.beq]
  | .prim _, .unknown _ => by simp [IbisType.beq]
  | .array _, .prim _ => by simp [IbisType.beq]
  | .array a, .array b => by
    have ih := IbisType.beq_iff a b
    simp [IbisType.beq, ih]
  | .array _, .structT _ _ => by simp [IbisType.beq]
  | .array _, .unknown _ => by simp [IbisType.beq]
  | .structT _ _, .prim _ => by simp [IbisType.beq]
  | .structT _ _, .array _ => by simp [IbisType.beq]
  | .structT ns ts, .structT ms us => by
    have ih := IbisType.beqList_iff ts us
    simp [IbisType.beq, ih]
  | .structT _ _, .unknown _ => by simp [IbisType.beq]
  | .unknown _, .prim _ => by simp [IbisType.beq]
  | .unknown _, .array _ => by simp [IbisType.beq]
  | .unknown _, .structT _ _ => by simp [IbisType.beq]
  | .unknown _, .unknown _ => by simp [IbisType.beq]

theorem IbisType.beqList_iff :
    (l r : List IbisType) → (IbisType.beqList l r = true ↔ l = r)
  | [], [] => by simp [IbisType.beqList]
  | [], _ :: _ => by simp [IbisType.beqList]
  | _ :: _, [] => by simp [IbisType.beqList]
  | a :: l, b :: r => by
    have ih1 := IbisType.beq_iff a b
    have ih2 := IbisType.beqList_iff l r
    simp [IbisType.beqList, ih1, ih2]

end

/-- A BigQuery column descriptor (`google.cloud.bigquery.schema.SchemaField`):
name, declared kind string, modality string, and child field descriptors. -/
inductive SchemaField where
  | mk (name : String) (field_type : String) (mode : String)
      (fields : List SchemaField)

def SchemaField.name : SchemaField → String
  | .mk n _ _ _ => n

def SchemaField.field_type : SchemaField → String
  | .mk _ t _ _ => t

def SchemaField.mode : SchemaField → String
  | .mk _ _ m _ => m

def SchemaField.fields : SchemaField → List SchemaField
  | .mk _ _ _ fs => fs

/-- `_LEGACY_TO_STANDARD` from `ibis/bigquery/client.py`. -/
def LEGACY_TO_STANDARD : String → Option String
  | "INTEGER" => some "INT64"
  | "FLOAT" => some "FLOAT64"
  | "BOOLEAN" => some "BOOL"
  | _ => Option.none

/-- `_DTYPE_TO_IBIS_TYPE` from `ibis/bigquery/client.py`. -/
def DTYPE_TO_IBIS_TYPE : String → Option IbisType
  | "INT64" => some .int64
  | "FLOAT64" => some .double
  | "BOOL" => some .boolean
  | "STRING" => some .string
  | "DATE" => some .date
  | "DATETIME" => some .timestamp
  | "TIME" => some .time
  | "TIMESTAMP" => some .timestamp
  | "BYTES" => some .binary
  | _ => Option.none

/-- `_IBIS_TYPE_TO_DTYPE` from `ibis/bigquery/client.py`: keys are the
`str(...)` renderings of ibis types. -/
def IBIS_TYPE_TO_DTYPE : String → Option String
  | "string" => some "STRING"
  | "int64" => some "INT64"
  | "double" => some "FLOAT64"
  | "boolean" => some "BOOL"
  | "timestamp" => some "TIMESTAMP"
  | "date" => some "DATE"
  | _ => Option.none

mutual

/-- `bigquery_field_to_ibis_dtype` (the `dt.dtype` rule registered for
`bq.schema.SchemaField`), `ibis/bigquery/client.py` lines 61-75.  The
`assert fields` on an empty RECORD and any failure of a recursive
child import surface as `Except.error`. -/
def bigquery_field_to_ibis_dtype : SchemaField → Except String IbisType
  | .mk _ typ mode fields => do
    let ibis_type ←
      if typ = "RECORD" then
        match fields with
        | [] => Except.error "RECORD fields are empty"
        | _ :: _ => do
          let ibis_types ← importAll fields
          pure (IbisType.structT (fields.map SchemaField.name) ibis_types)
      else
        let t1 := (LEGACY_TO_STANDARD typ).getD typ
        pure ((DTYPE_TO_IBIS_TYPE t1).getD (IbisType.unknown t1))
    pure (if mode = "REPEATED" then IbisType.array ibis_type else ibis_type)

/-- `list(map(dt.dtype, fields))`: import a descriptor list in declared
order, propagating the first failure. -/
def importAll : List SchemaField → Except String (List IbisType)
  | [] => pure []
  | f :: fs => do
    let t ← bigquery_field_to_ibis_dtype f
    let ts ← importAll fs
    pure (t :: ts)

end

/-- `NATIVE_PARTITION_COL` from `ibis/bigquery/client.py`. -/
def NATIVE_PARTITION_COL : String := "_PARTITIONTIME"

/-- Python `OrderedDict` insertion: an existing key keeps its position and
gets the new value; a fresh key is appended at the end. -/
def odInsert (l : List (String × IbisType)) (k : String) (v : IbisType) :
    List (String × IbisType) :=
  if l.any (fun p => p.1 = k) then
    l.map (fun p => if p.1 = k then (k, v) else p)
  else
    l ++ [(k, v)]

/-- Python `OrderedDict.setdefault`: append `(k, v)` only when `k` is not
yet a key. -/
def odSetdefault (l : List (String × IbisType)) (k : String) (v : IbisType) :
    List (String × IbisType) :=
  if l.any (fun p => p.1 = k) then l else l ++ [(k, v)]

/-- A BigQuery table descriptor as `bigquery_schema` consumes it: the
declared column descriptors, and the `timePartitioning` entry of
`table._properties` (`Option.none` means no such entry; `some Option.none`
means partitioned without an explicit `field`; `some (some f)` means
partitioned on field `f`). -/
structure BqTable where
  schema : List SchemaField
  timePartitioning : Option (Option String)

/-- `OrderedDict((el.name, dt.dtype(el)) for el in table.schema)`:
insert each `(name, imported type)` pair in declaration order, propagating
an import failure. -/
def buildFieldsOD :
    List SchemaField → List (String × IbisType) →
      Except String (List (String × IbisType))
  | [], acc => pure acc
  | f :: fs, acc => do
    let t ← bigquery_field_to_ibis_dtype f
    buildFieldsOD fs (odInsert acc f.name t)

/-- The `Schema` value of `ibis/expr/schema.py`: parallel name and type
lists (the `_name_locs` index is derivable and not stored). -/
structure SchemaV where
  names : List String
  types : List IbisType

/-- `Schema.__init__` (`ibis/expr/schema.py` lines 27-37): the duplicate
check compares the number of distinct names (`dict` keys) to the number of
names. -/
def Schema_init (names : List String) (types : List IbisType) :
    Except String SchemaV :=
  if names.dedup.length < names.length then
    Except.error "Duplicate column names"
  else
    Except.ok ⟨names, types⟩

/-- `Schema.from_tuples`: unzip the pairs and construct; the source guards
the empty case explicitly (`zip(*values) if values else ([], [])`), so an
empty pair list constructs the empty schema. -/
def Schema_from_tuples (values : List (String × IbisType)) :
    Except String SchemaV :=
  Schema_init (values.map Prod.fst) (values.map Prod.snd)

/-- `Schema.from_dict` (`ibis/expr/schema.py` lines 97-99):
`Schema(*zip(*dictionary.items()))`, with no empty-case guard.  On an
empty mapping `zip(*[])` unpacks to zero arguments, so the call is
`Schema()` and Python raises a `TypeError` for the missing positional
arguments; on a non-empty mapping the unpacking yields the key tuple and
the value tuple, i.e. `Schema_init` on keys and values. -/
def Schema_from_dict (d : List (String × IbisType)) : Except String SchemaV :=
  match d with
  | [] => Except.error "Schema() missing required positional arguments"
  | p :: rest =>
    Schema_init ((p :: rest).map Prod.fst) ((p :: rest).map Prod.snd)

/-- `Schema.append` (`ibis/expr/schema.py` lines 107-108). -/
def Schema_append (a b : SchemaV) : Except String SchemaV :=
  Schema_init (a.names ++ b.names) (a.types ++ b.types)

/-- `Schema.name_at_position` (`ibis/expr/schema.py` lines 113-123); the
index is a Python integer, so it is modelled as `Int`. -/
def name_at_position (s : SchemaV) (i : Int) : Except String String :=
  let upper : Int := (s.names.length : Int) - 1
  if 0 ≤ i ∧ i ≤ upper then
    Except.ok (s.names.getD i.toNat "")
  else
    Except.error
      ("Column index must be between 0 and " ++ toString upper ++
        ", inclusive")

/-- `bigquery_schema` (the `sch.infer` rule registered for
`bq.table.Table`), `ibis/bigquery/client.py` lines 78-89: build the
ordered name-to-type mapping, reconcile the partition column, and construct
a `Schema` from the mapping (`sch.schema` on a dict dispatches to
`Schema.from_dict`, which raises a `TypeError` on an empty mapping). -/
def bigquery_schema (t : BqTable) : Except String SchemaV := do
  let fields ← buildFieldsOD t.schema []
  let fields :=
    match t.timePartitioning with
    | Option.none => fields
    | some partition_info =>
      let partition_field := partition_info.getD NATIVE_PARTITION_COL
      odSetdefault fields partition_field .timestamp
  Schema_from_dict fields

/-- A Python `datetime.date`. -/
structure PDate where
  year : Nat
  month : Nat
  day : Nat
deriving DecidableEq, Repr

/-- `PDate` values carry no recursive structure; giving them size zero
keeps the termination measure of the parameter binder independent of the
numeric field values. -/
instance : SizeOf PDate := ⟨fun _ => 0⟩

/-- A Python `datetime.datetime` (timezone-naive). -/
structure PDatetime where
  date : PDate
  hour : Nat
  minute : Nat
  second : Nat
deriving DecidableEq, Repr

instance : SizeOf PDatetime := ⟨fun _ => 0⟩

/-- A Python value as it can appear in a pandas column or as a query
parameter: `none` is a missing value (`None`/`NaN`); `odict` is an
`OrderedDict`.  Floating-point values are outside the verified fragment.
`pdate` and `pdatetime` are distinct constructors because `multipledispatch`
sends a `datetime` to the more specific `datetime.datetime` rule even
though Python's `datetime` subclasses `date`. -/
inductive PyVal where
  | none
  | int (n : Int)
  | bool (b : Bool)
  | str (s : String)
  | pdate (d : PDate)
  | pdatetime (dt : PDatetime)
  | plist (vs : List PyVal)
  | odict (kvs : List (String × PyVal))

/-- Missing-value test (`pandas.isna`): only `None`/`NaN` cells are
missing. -/
def PyVal.isNull : PyVal → Bool
  | .none => true
  | _ => false

/-- A pandas `Series` as the inference code consumes it: its declared
machine dtype (the string `"object"` standing for `numpy.object_`) and its
cell values. -/
structure PSeries where
  dtype : String
  values : List PyVal

/-- `PANDAS_DTYPE_TO_IBIS_DTYPE` from `ibis/expr/schema.py` lines
191-200. -/
def PANDAS_DTYPE_TO_IBIS_DTYPE : String → Option IbisType
  | "string" => some .string
  | "unicode" => some .string
  | "empty" => some .null
  | "boolean" => some .boolean
  | "datetime" => some .timestamp
  | "datetime64" => some .timestamp
  | "timedelta" => some .interval
  | "bytes" => some .binary
  | _ => Option.none

/-- Auxiliary for `strStartsWith`: character-list prefix test. -/
def strStartsWithAux : List Char → List Char → Bool
  | [], _ => true
  | _ :: _, [] => false
  | c :: cs, d :: ds => (c = d) && strStartsWithAux cs ds

/-- Python `str.startswith`, over the underlying character data (so that it
is executable inside proofs, unlike `String.startsWith`). -/
def strStartsWith (s pre : String) : Bool :=
  strStartsWithAux pre.data s.data

/-- pandas `Series.unique` on mapped dtype objects: deduplicate preserving
the order of first occurrence, comparing structurally. -/
def pdUnique (l : List IbisType) : List IbisType :=
  l.foldl
    (fun acc a => if acc.any (fun b => IbisType.beq b a) then acc else acc ++ [a])
    []

/-- The nested `_infer_ibis_dtypes_from_series_strict` of
`ibis/expr/schema.py` lines 205-212, with the try/except-pass semantics
made explicit: `ibis_dtypes` starts as `[]`; the per-value map and the
`highest_precedence` reduction are two successive assignments inside one
`try`, so a failure of the map leaves `[]` while a failure of
`highest_precedence` leaves the deduplicated per-value list.
`dtInfer` stands for `dt.infer` and `hp` for `dt.highest_precedence`
(both live in `ibis.expr.datatypes`, outside the sources under study);
their `Except.error` is an `IbisTypeError`. -/
def infer_strict_helper (dtInfer : PyVal → Except Unit IbisType)
    (hp : List IbisType → Except Unit IbisType)
    (series_nona : List PyVal) : List IbisType :=
  match series_nona.mapM dtInfer with
  | .error _ => []
  | .ok ts =>
    let uts := pdUnique ts
    match hp uts with
    | .error _ => uts
    | .ok t => [t]

/-- `infer_ibis_dtypes_from_series`, `ibis/expr/schema.py` lines 203-234.
`dtypeOf` stands for `dt.dtype` on a machine dtype and `ipd` for pandas'
`infer_dtype`; an uncaught exception (the `IndexError`/`IbisTypeError`
that `series_nona.iat[0]` resp. `dt.infer` can raise on the non-strict
path) is the `Except.error` outcome. -/
def infer_ibis_dtypes_from_series (dtInfer : PyVal → Except Unit IbisType)
    (hp : List IbisType → Except Unit IbisType)
    (dtypeOf : String → IbisType) (ipd : List PyVal → String)
    (series : PSeries) (strict aggressive_null : Bool) :
    Except Unit (List IbisType) :=
  let series :=
    if aggressive_null then
      { series with values := series.values.filter (fun v => ¬ v.isNull) }
    else series
  if aggressive_null ∧ series.values.isEmpty then
    pure [.null]
  else if series.dtype ≠ "object" then
    pure [dtypeOf series.dtype]
  else
    let series_nona := series.values.filter (fun v => ¬ v.isNull)
    let pandas_dtype := ipd series_nona
    if strStartsWith pandas_dtype "mixed" then
      if strict then
        pure (infer_strict_helper dtInfer hp series_nona)
      else
        match series_nona with
        | [] => Except.error ()
        | v :: _ => do
          let t ← dtInfer v
          pure [t]
    else
      match PANDAS_DTYPE_TO_IBIS_DTYPE pandas_dtype with
      | some t => pure [t]
      | Option.none => pure []

/-- The list comprehension opening `infer_pandas_schema`
(`ibis/expr/schema.py` lines 239-242): classify every column of the frame,
propagating the first per-column exception. -/
def classifyColumns (dtInfer : PyVal → Except Unit IbisType)
    (hp : List IbisType → Except Unit IbisType)
    (dtypeOf : String → IbisType) (ipd : List PyVal → String)
    (df : List (String × PSeries)) (strict aggressive_null : Bool) :
    Except Unit (List (String × List IbisType)) :=
  df.mapM (fun cs =>
    (infer_ibis_dtypes_from_series dtInfer hp dtypeOf ipd cs.2 strict
        aggressive_null).map
      (fun ds => (cs.1, ds)))

/-- `none_cols`: the columns whose candidate list is empty. -/
def noneCols (pairs : List (String × List IbisType)) : List String :=
  (pairs.filter (fun p => p.2.length = 0)).map Prod.fst

/-- `multi_cols`: the columns with two or more candidate types. -/
def multiCols (pairs : List (String × List IbisType)) :
    List (String × List IbisType) :=
  pairs.filter (fun p => 1 < p.2.length)

/-- The surviving `(col, dtypes[0])` pairs of the single-candidate
columns. -/
def goodPairs (pairs : List (String × List IbisType)) :
    List (String × IbisType) :=
  pairs.filterMap (fun p =>
    match p.2 with
    | [d] => some (p.1, d)
    | _ => Option.none)

/-- How `infer_pandas_schema` can fail: a per-column exception propagated
out of the classification pass, the combined `TypeError` carrying every
undecidable and every ambiguous column, or the `IntegrityError` of the
final `Schema` construction. -/
inductive InferenceFailure where
  | perColumn
  | combined (none_cols : List String)
      (multi_cols : List (String × List IbisType))
  | integrity (msg : String)

/-- `infer_pandas_schema` (the `infer` rule registered for
`pd.DataFrame`), `ibis/expr/schema.py` lines 237-270; the source defaults
are `strict=True, aggressive_null=True`. -/
def infer_pandas_schema (dtInfer : PyVal → Except Unit IbisType)
    (hp : List IbisType → Except Unit IbisType)
    (dtypeOf : String → IbisType) (ipd : List PyVal → String)
    (df : List (String × PSeries)) (strict aggressive_null : Bool) :
    Except InferenceFailure SchemaV :=
  match classifyColumns dtInfer hp dtypeOf ipd df strict aggressive_null with
  | .error _ => Except.error .perColumn
  | .ok pairs =>
    let nc := noneCols pairs
    let mc := multiCols pairs
    let good := goodPairs pairs
    if ¬ nc.isEmpty ∨ ¬ mc.isEmpty then
      Except.error (.combined nc mc)
    else
      match Schema_from_tuples good with
      | .error m => Except.error (.integrity m)
      | .ok s => Except.ok s

/-- Value of one decimal digit. -/
def digitVal (c : Char) : Option Nat :=
  if '0' ≤ c ∧ c ≤ '9' then some (c.toNat - '0'.toNat) else Option.none

/-- Read a non-empty all-digit character group as a number. -/
def digitsToNat (cs : List Char) : Option Nat :=
  match cs with
  | [] => Option.none
  | _ :: _ =>
    cs.foldl
      (fun acc c =>
        match acc, digitVal c with
        | some n, some d => some (n * 10 + d)
        | _, _ => Option.none)
      (some 0)

/-- Split a character list on `'-'`. -/
def splitOnDash : List Char → List (List Char)
  | [] => [[]]
  | c :: rest =>
    let r := splitOnDash rest
    if c = '-' then [] :: r
    else
      match r with
      | [] => [[c]]
      | g :: gs => (c :: g) :: gs

/-- Modelled from the spec: `pd.Timestamp` applied to a string ("reparse as
a date-only value"), which lives in pandas, outside the sources under
study.  The model accepts exactly the ISO `YYYY-MM-DD` date strings and
yields the corresponding midnight datetime; any other string is a parse
failure (`ValueError`). -/
def parseTimestampString (s : String) : Option PDatetime :=
  match splitOnDash s.data with
  | [y, m, d] =>
    match digitsToNat y, digitsToNat m, digitsToNat d with
    | some yn, some mn, some dn => some ⟨⟨yn, mn, dn⟩, 0, 0, 0⟩
    | _, _, _ => Option.none
  | _ => Option.none

/-- The name of a primitive kind as `str(...)` renders it. -/
def primName : PrimKind → String
  | .string => "string"
  | .int64 => "int64"
  | .double => "double"
  | .boolean => "boolean"
  | .timestamp => "timestamp"
  | .date => "date"
  | .time => "time"
  | .binary => "binary"
  | .null => "null"
  | .interval => "interval"

mutual

/-- `str(...)` on an ibis type, as used to key `_IBIS_TYPE_TO_DTYPE`. -/
def ibisTypeName : IbisType → String
  | .prim k => primName k
  | .array t => "array<" ++ ibisTypeName t ++ ">"
  | .structT ns ts => "struct<" ++ renderFields ns ts ++ ">"
  | .unknown s => s

/-- Comma-separated `name: type` rendering of struct fields. -/
def renderFields : List String → List IbisType → String
  | n :: ns, t :: ts =>
    let rest := renderFields ns ts
    n ++ ": " ++ ibisTypeName t ++ (if rest = "" then "" else ", " ++ rest)
  | _, _ => ""

end

/-- A scalar-parameter expression as the binder sees it: its resolved name
(`param.get_name()`) and its declared ibis type (`param.type()`), which is
what the `multipledispatch` registration on the expression class keys
on. -/
structure Param where
  name : String
  type : IbisType

/-- Modelled from the spec: `param[k]` on a Struct-typed parameter ("looking
up the child sub-parameter by field name") — `StructValue.__getitem__`
lives in `ibis.expr.types`, outside the sources under study.  It yields the
declared type of the first field named `k`, or a lookup failure. -/
def structFieldLookup : List String → List IbisType → String → Option IbisType
  | n :: ns, t :: ts, k => if k = n then some t else structFieldLookup ns ts k
  | _, _, _ => Option.none

/-- A bound query parameter: `bq.ScalarQueryParameter`,
`bq.ArrayQueryParameter` carrying the whole value sequence, or
`bq.StructQueryParameter` with ordered children. -/
inductive BoundParameter where
  | scalar (name : String) (typ : String) (value : PyVal)
  | arrayParam (name : String) (typ : String) (values : List PyVal)
  | structParam (name : String) (children : List BoundParameter)

/-- The name a bound parameter was produced under. -/
def BoundParameter.paramName : BoundParameter → String
  | .scalar n _ _ => n
  | .arrayParam n _ _ => n
  | .structParam n _ => n

/-- How parameter binding can fail: `com.UnsupportedBackendType` (raised
with the array type by `bq_param_array`), the `NotImplementedError` of
`multipledispatch` when no rule matches the (declared type, value class)
pair, the `KeyError` of a struct field lookup, and the `ValueError` of an
unparseable date/timestamp string. -/
inductive BqParamError where
  | unsupportedBackendType (t : IbisType)
  | noMatchingRule (t : IbisType) (v : PyVal)
  | keyError (k : String)
  | valueError

/-- Rank used by the binder's termination measure: each re-dispatch of the
date/timestamp normalization chain strictly lowers it. -/
def pyRank : PyVal → Nat
  | .none => 0
  | .int _ => 0
  | .bool _ => 0
  | .str _ => 2
  | .pdate _ => 0
  | .pdatetime _ => 1
  | .plist _ => 0
  | .odict _ => 0

theorem pyRank_le_two (v : PyVal) : pyRank v ≤ 2 := by
  cases v <;> simp [pyRank]

mutual

/-- The `bigquery_param` dispatcher of `ibis/bigquery/client.py` lines
172-239, as a match over the (declared ibis type, value constructor)
pairs that correspond to the registered rules.  `bq_param_timestamp`'s
`pd.Timestamp(value, tz='UTC')` is modelled timezone-naively with
`parseTimestampString` for strings; `bq_param_date_string` re-dispatches
on `pd.Timestamp(value).to_pydatetime().date()`, a `date` object, and
`bq_param_date_datetime` re-dispatches on `value.date()`.  A `bool` value
also matches the integer rule because Python's `bool` subclasses `int`. -/
def bigquery_param (p : Param) (v : PyVal) : Except BqParamError BoundParameter :=
  match p.type, v with
  | .structT names types, .odict kvs => do
    let field_params ← bq_struct_fields names types kvs
    pure (.structParam p.name field_params)
  | .array elemT, .plist vs =>
    match IBIS_TYPE_TO_DTYPE (ibisTypeName elemT) with
    | some bigquery_type => pure (.arrayParam p.name bigquery_type vs)
    | Option.none => Except.error (.unsupportedBackendType (.array elemT))
  | .prim .timestamp, .str s =>
    match parseTimestampString s with
    | some dtv => pure (.scalar p.name "TIMESTAMP" (.pdatetime dtv))
    | Option.none => Except.error .valueError
  | .prim .timestamp, .pdatetime dtv =>
    pure (.scalar p.name "TIMESTAMP" (.pdatetime dtv))
  | .prim .timestamp, .pdate d =>
    pure (.scalar p.name "TIMESTAMP" (.pdatetime ⟨d, 0, 0, 0⟩))
  | .prim .string, .str s => pure (.scalar p.name "STRING" (.str s))
  | .prim .int64, .int n => pure (.scalar p.name "INT64" (.int n))
  | .prim .int64, .bool b => pure (.scalar p.name "INT64" (.bool b))
  | .prim .boolean, .bool b => pure (.scalar p.name "BOOL" (.bool b))
  | .prim .date, .str s =>
    match parseTimestampString s with
    | some dtv => bigquery_param p (.pdate dtv.date)
    | Option.none => Except.error .valueError
  | .prim .date, .pdatetime dtv => bigquery_param p (.pdate dtv.date)
  | .prim .date, .pdate d => pure (.scalar p.name "DATE" (.pdate d))
  | t, w => Except.error (.noMatchingRule t w)
termination_by 4 * sizeOf v + pyRank v
decreasing_by
all_goals simp [pyRank]
all_goals omega

/-- The list comprehension of `bq_param_struct`: bind each `(k, v)` item of
the ordered mapping in iteration order, looking the sub-parameter up by
field name. -/
def bq_struct_fields (names : List String) (types : List IbisType)
    (kvs : List (String × PyVal)) : Except BqParamError (List BoundParameter) :=
  match kvs with
  | [] => pure []
  | (k, vk) :: rest =>
    match structFieldLookup names types k with
    | some t => do
      let c ← bigquery_param ⟨k, t⟩ vk
      let cs ← bq_struct_fields names types rest
      pure (c :: cs)
    | Option.none => Except.error (.keyError k)
termination_by 4 * sizeOf kvs + 3
decreasing_by
all_goals first
| (simp [pyRank]; done)
| (simp [pyRank]; omega)
| (have h := pyRank_le_two ‹PyVal›; simp; omega)

end

mutual

/-- Instrumentation of `bigquery_param`: the sequence of registered rule
functions the dispatcher runs through for a given (declared type, value)
pair, in invocation order, including the rules reached by explicit
re-dispatch (`bigquery_param(param, ...)` calls inside a rule) and, for a
struct, the rules run for its children. -/
def bqDispatchTrace (p : Param) (v : PyVal) : List String :=
  match p.type, v with
  | .structT names types, .odict kvs =>
    "bq_param_struct" :: bqTraceFields names types kvs
  | .array _, .plist _ => ["bq_param_array"]
  | .prim .timestamp, .str _ => ["bq_param_timestamp"]
  | .prim .timestamp, .pdatetime _ => ["bq_param_timestamp"]
  | .prim .timestamp, .pdate _ => ["bq_param_timestamp"]
  | .prim .string, .str _ => ["bq_param_string"]
  | .prim .int64, .int _ => ["bq_param_integer"]
  | .prim .int64, .bool _ => ["bq_param_integer"]
  | .prim .boolean, .bool _ => ["bq_param_boolean"]
  | .prim .date, .str s =>
    match parseTimestampString s with
    | some dtv => "bq_param_date_string" :: bqDispatchTrace p (.pdate dtv.date)
    | Option.none => ["bq_param_date_string"]
  | .prim .date, .pdatetime dtv =>
    "bq_param_date_datetime" :: bqDispatchTrace p (.pdate dtv.date)
  | .prim .date, .pdate _ => ["bq_param_date"]
  | _, _ => []
termination_by 4 * sizeOf v + pyRank v
decreasing_by
all_goals first
| (simp [pyRank]; done)
| (simp [pyRank]; omega)

/-- Rule trace of the children of a struct binding, in item order. -/
def bqTraceFields (names : List String) (types : List IbisType)
    (kvs : List (String × PyVal)) : List String :=
  match kvs with
  | [] => []
  | (k, vk) :: rest =>
    match structFieldLookup names types k with
    | some t => bqDispatchTrace ⟨k, t⟩ vk ++ bqTraceFields names types rest
    | Option.none => []
termination_by 4 * sizeOf kvs + 3
decreasing_by
all_goals first
| (simp [pyRank]; done)
| (simp [pyRank]; omega)
| (have h := pyRank_le_two ‹PyVal›; simp; omega)

end

/-- The number of distinct elements is smaller than the length exactly when
the list has a repeat (the `len(self._name_locs) < len(self.names)` test). -/
theorem dedup_length_lt_iff {α : Type} [DecidableEq α] {l : List α} :
    l.dedup.length < l.length ↔ ¬ l.Nodup := by
  constructor
  · intro h hn
    rw [List.Nodup.dedup hn] at h
    exact lt_irrefl _ h
  · intro hn
    have hsub : List.Sublist l.dedup l := List.dedup_sublist l
    rcases lt_or_eq_of_le hsub.length_le with h | h
    · exact h
    · exact absurd (List.dedup_eq_self.mp (hsub.eq_of_length h)) hn

/-- `Schema` construction succeeds on duplicate-free names. -/
theorem Schema_init_ok {names : List String} {types : List IbisType}
    (h : names.Nodup) : Schema_init names types = Except.ok ⟨names, types⟩ := by
  have : ¬ names.dedup.length < names.length := by
    rw [dedup_length_lt_iff]
    exact not_not_intro h
  simp [Schema_init, this]

/-- `Schema` construction raises `IntegrityError` on a duplicated name. -/
theorem Schema_init_dup {names : List String} {types : List IbisType}
    (h : ¬ names.Nodup) :
    Schema_init names types = Except.error "Duplicate column names" := by
  have : names.dedup.length < names.length := dedup_length_lt_iff.mpr h
  simp [Schema_init, this]

/-- A successfully constructed `Schema` has duplicate-free names. -/
theorem Schema_init_names_nodup {names : List String} {types : List IbisType}
    {s : SchemaV} (h : Schema_init names types = Except.ok s) :
    s.names.Nodup := by
  by_cases hn : names.Nodup
  · rw [Schema_init_ok hn] at h
    cases h
    exact hn
  · rw [Schema_init_dup hn] at h
    cases h

/-- `Schema.from_dict` on a non-empty duplicate-free mapping constructs
the schema of its keys and values. -/
theorem Schema_from_dict_ok {d : List (String × IbisType)} (hne : d ≠ [])
    (hnodup : (d.map Prod.fst).Nodup) :
    Schema_from_dict d = Except.ok ⟨d.map Prod.fst, d.map Prod.snd⟩ := by
  cases d with
  | nil => exact absurd rfl hne
  | cons p rest => exact Schema_init_ok hnodup

/-- `Schema.from_dict` on the empty mapping unpacks to a zero-argument
`Schema()` call and raises a `TypeError`. -/
theorem Schema_from_dict_nil :
    Schema_from_dict [] =
      Except.error "Schema() missing required positional arguments" := rfl

/-- C4: for every sequence of (name, type) pairs with pairwise-distinct
names, constructing a `Schema` and reading back its names and types in
order reproduces the input exactly; for every sequence containing a
duplicate name, construction raises the duplicate-column-names integrity
error and no `Schema` is produced. -/
theorem schema_roundtrip_spec (values : List (String × IbisType)) :
    ((values.map Prod.fst).Nodup →
      Schema_from_tuples values =
        Except.ok ⟨values.map Prod.fst, values.map Prod.snd⟩) ∧
    (¬ (values.map Prod.fst).Nodup →
      Schema_from_tuples values = Except.error "Duplicate column names") := by
  constructor
  · intro h
    exact Schema_init_ok h
  · intro h
    exact Schema_init_dup h

theorem schema_roundtrip_spec_witness :
    Schema_from_tuples [("a", IbisType.int64), ("b", IbisType.string)] =
      Except.ok ⟨["a", "b"], [IbisType.int64, IbisType.string]⟩ ∧
    Schema_from_tuples [("a", IbisType.int64), ("a", IbisType.string)] =
      Except.error "Duplicate column names" := by
  constructor
  · exact (schema_roundtrip_spec _).1 (by simp)
  · exact (schema_roundtrip_spec _).2 (by simp)

/-- C9: for every `Schema` and every integer `i`, `name_at_position`
succeeds exactly when `0 ≤ i ≤ length - 1`, in which case it returns the
`i`-th name in declaration order; every `i` outside that range (hence
every `i` at all when the schema is empty) raises the bounds error instead
of reading out of range. -/
theorem name_at_position_spec (s : SchemaV) (i : Int) :
    ((0 ≤ i ∧ i ≤ (s.names.length : Int) - 1) →
      ∃ h : i.toNat < s.names.length,
        name_at_position s i = Except.ok (s.names.get ⟨i.toNat, h⟩)) ∧
    (¬ (0 ≤ i ∧ i ≤ (s.names.length : Int) - 1) →
      name_at_position s i =
        Except.error
          ("Column index must be between 0 and " ++
            toString ((s.names.length : Int) - 1) ++ ", inclusive")) := by
  constructor
  · rintro ⟨h0, h1⟩
    have hlt : i.toNat < s.names.length := by omega
    refine ⟨hlt, ?_⟩
    simp only [name_at_position, if_pos (And.intro h0 h1)]
    congr 1
    rw [List.getD_eq_getElem?_getD, List.getElem?_eq_getElem hlt]
    simp [List.get_eq_getElem]
  · intro h
    simp only [name_at_position, if_neg h]

theorem name_at_position_spec_witness :
    name_at_position ⟨["a", "b"], [IbisType.int64, IbisType.string]⟩ 1 =
      Except.ok "b" ∧
    name_at_position ⟨["a", "b"], [IbisType.int64, IbisType.string]⟩ (-1) =
      Except.error "Column index must be between 0 and 1, inclusive" := by
  constructor
  · obtain ⟨h, he⟩ :=
      (name_at_position_spec ⟨["a", "b"], [IbisType.int64, IbisType.string]⟩
        1).1 (by constructor <;> decide)
    exact he
  · have he :=
      (name_at_position_spec ⟨["a", "b"], [IbisType.int64, IbisType.string]⟩
        (-1)).2 (by intro h; exact absurd h.1 (by decide))
    exact he

/-- C10: for every pair of `Schema`s, `append` returns a new `Schema` whose
names and types are the concatenation of the two (first operand first)
when the combined names are pairwise distinct; it raises the
duplicate-column-names integrity error whenever a name of the second
already occurs in the first or the concatenation has any repeat; and every
`Schema` an `append` returns satisfies the name-uniqueness invariant. -/
theorem schema_append_spec (a b : SchemaV) :
    ((a.names ++ b.names).Nodup →
      Schema_append a b = Except.ok ⟨a.names ++ b.names, a.types ++ b.types⟩) ∧
    (¬ (a.names ++ b.names).Nodup →
      Schema_append a b = Except.error "Duplicate column names") ∧
    (∀ n, n ∈ a.names → n ∈ b.names →
      Schema_append a b = Except.error "Duplicate column names") ∧
    (∀ s, Schema_append a b = Except.ok s → s.names.Nodup) := by
  refine ⟨?_, ?_, ?_, ?_⟩
  · intro h
    exact Schema_init_ok h
  · intro h
    exact Schema_init_dup h
  · intro n hna hnb
    apply Schema_init_dup
    rw [List.nodup_append]
    intro ⟨_, _, hdisj⟩
    exact hdisj hna hnb
  · intro s h
    exact Schema_init_names_nodup h

theorem schema_append_spec_witness :
    Schema_append ⟨["a"], [IbisType.int64]⟩ ⟨["b"], [IbisType.string]⟩ =
      Except.ok ⟨["a", "b"], [IbisType.int64, IbisType.string]⟩ ∧
    Schema_append ⟨["a"], [IbisType.int64]⟩ ⟨["a"], [IbisType.string]⟩ =
      Except.error "Duplicate column names" := by
  constructor
  · exact (schema_append_spec ⟨["a"], [IbisType.int64]⟩
      ⟨["b"], [IbisType.string]⟩).1 (by simp)
  · exact (schema_append_spec ⟨["a"], [IbisType.int64]⟩
      ⟨["a"], [IbisType.string]⟩).2.2.1 "a" (by simp) (by simp)

@[simp] theorem exceptBind_ok {ε α β : Type} (a : α) (f : α → Except ε β) :
    (Except.ok a >>= f) = f a := rfl

@[simp] theorem exceptBind_error {ε α β : Type} (e : ε) (f : α → Except ε β) :
    ((Except.error e : Except ε α) >>= f) = Except.error e := rfl

@[simp] theorem exceptPure_def {ε α : Type} (a : α) :
    (pure a : Except ε α) = Except.ok a := rfl

@[simp] theorem exceptFMap_ok {ε α β : Type} (f : α → β) (a : α) :
    (f <$> (Except.ok a : Except ε α)) = Except.ok (f a) := rfl

@[simp] theorem exceptFMap_error {ε α β : Type} (f : α → β) (e : ε) :
    (f <$> (Except.error e : Except ε α)) = Except.error e := rfl

@[simp] theorem exceptMap_ok {ε α β : Type} (f : α → β) (a : α) :
    (Except.ok a : Except ε α).map f = Except.ok (f a) := rfl

@[simp] theorem exceptMap_error {ε α β : Type} (f : α → β) (e : ε) :
    (Except.error e : Except ε α).map f = Except.error e := rfl

/-- `importAll` is the in-order effectful map of the importer over the
child descriptors. -/
theorem importAll_eq_mapM (fields : List SchemaField) :
    importAll fields = fields.mapM bigquery_field_to_ibis_dtype := by
  induction fields with
  | nil => rfl
  | cons f fs ih => rw [importAll, List.mapM_cons, ih]

/-- A successful `importAll` yields one type per child descriptor. -/
theorem importAll_length {fields : List SchemaField} {ts : List IbisType}
    (h : importAll fields = Except.ok ts) : ts.length = fields.length := by
  induction fields generalizing ts with
  | nil =>
    simp [importAll] at h
    simp [← h]
  | cons f fs ih =>
    rw [importAll] at h
    cases hf : bigquery_field_to_ibis_dtype f with
    | error e => rw [hf] at h; simp at h
    | ok t =>
      rw [hf] at h
      cases hfs : importAll fs with
      | error e => rw [hfs] at h; simp at h
      | ok us =>
        rw [hfs] at h
        simp at h
        simp [← h, ih hfs]

/-- C1: importing a warehouse column descriptor of kind RECORD with at
least one child field yields `Struct(children)` with the children imported
recursively in declared order (`importAll` is the in-order recursive and
ordered import); a RECORD descriptor with zero child fields fails; a REPEATED
modality wraps the result in `Array(...)` after RECORD resp. primitive
resolution, so a repeated record yields `Array(Struct(children))`. -/
theorem bigquery_record_import_spec (nm typ mode : String)
    (fields : List SchemaField) (ts : List IbisType) :
    (importAll fields = fields.mapM bigquery_field_to_ibis_dtype) ∧
    (importAll fields = Except.ok ts → fields ≠ [] →
      bigquery_field_to_ibis_dtype (SchemaField.mk nm "RECORD" mode fields) =
        Except.ok
          (if mode = "REPEATED" then
            IbisType.array (IbisType.structT (fields.map SchemaField.name) ts)
          else IbisType.structT (fields.map SchemaField.name) ts)) ∧
    (bigquery_field_to_ibis_dtype (SchemaField.mk nm "RECORD" mode []) =
      Except.error "RECORD fields are empty") ∧
    (typ ≠ "RECORD" →
      bigquery_field_to_ibis_dtype (SchemaField.mk nm typ mode fields) =
        Except.ok
          (if mode = "REPEATED" then
            IbisType.array
              ((DTYPE_TO_IBIS_TYPE ((LEGACY_TO_STANDARD typ).getD typ)).getD
                (IbisType.unknown ((LEGACY_TO_STANDARD typ).getD typ)))
          else
            (DTYPE_TO_IBIS_TYPE ((LEGACY_TO_STANDARD typ).getD typ)).getD
              (IbisType.unknown ((LEGACY_TO_STANDARD typ).getD typ)))) := by
  refine ⟨importAll_eq_mapM fields, ?_, ?_, ?_⟩
  · intro himp hne
    cases fields with
    | nil => exact absurd rfl hne
    | cons f fs =>
      rw [bigquery_field_to_ibis_dtype.eq_def]
      simp only [if_pos rfl]
      rw [himp]
      simp [Except.bind, pure, Except.pure]
  · rw [bigquery_field_to_ibis_dtype.eq_def]
    simp [Except.bind]
  · intro htyp
    rw [bigquery_field_to_ibis_dtype.eq_def]
    simp only [if_neg htyp]
    simp [Except.bind, pure, Except.pure]

theorem bigquery_record_import_spec_witness :
    bigquery_field_to_ibis_dtype
        (SchemaField.mk "payload" "RECORD" "REPEATED"
          [SchemaField.mk "x" "FLOAT" "NULLABLE" [],
           SchemaField.mk "y" "STRING" "NULLABLE" []]) =
      Except.ok
        (IbisType.array
          (IbisType.structT ["x", "y"] [IbisType.double, IbisType.string])) := by
  have himp : importAll
      [SchemaField.mk "x" "FLOAT" "NULLABLE" [],
       SchemaField.mk "y" "STRING" "NULLABLE" []] =
      Except.ok [IbisType.double, IbisType.string] := by
    rw [importAll, bigquery_field_to_ibis_dtype.eq_def]
    rw [importAll, bigquery_field_to_ibis_dtype.eq_def]
    rw [importAll]
    simp [LEGACY_TO_STANDARD, DTYPE_TO_IBIS_TYPE, Except.bind, pure,
      Except.pure, IbisType.double, IbisType.string]
  have h :=
    (bigquery_record_import_spec "payload" "RECORD" "REPEATED"
      [SchemaField.mk "x" "FLOAT" "NULLABLE" [],
       SchemaField.mk "y" "STRING" "NULLABLE" []]
      [IbisType.double, IbisType.string]).2.1 himp (by simp)
  simpa [SchemaField.name] using h

/-- A member of the first zipped list appears as a first component. -/
theorem mem_fst_zip_of_mem {α β : Type} {a : α} {l1 : List α} {l2 : List β}
    (h : a ∈ l1) (hlen : l1.length ≤ l2.length) :
    ∃ b, (a, b) ∈ List.zip l1 l2 := by
  induction l1 generalizing l2 with
  | nil => cases h
  | cons x l ih =>
    cases l2 with
    | nil => simp at hlen
    | cons y l2 =>
      rcases List.mem_cons.mp h with rfl | hmem
      · exact ⟨y, List.mem_cons_self _ _⟩
      · obtain ⟨b, hb⟩ := ih hmem (by simpa using Nat.le_of_succ_le_succ hlen)
        exact ⟨b, List.mem_cons_of_mem _ hb⟩

/-- On duplicate-free, fresh column names `buildFieldsOD` appends
the imported `(name, type)` pairs in declaration order. -/
theorem buildFieldsOD_ok :
    ∀ (fs : List SchemaField) (acc : List (String × IbisType))
      (ts : List IbisType),
      importAll fs = Except.ok ts →
      (fs.map SchemaField.name).Nodup →
      (∀ f ∈ fs, ∀ p ∈ acc, p.1 ≠ f.name) →
      buildFieldsOD fs acc =
        Except.ok (acc ++ List.zip (fs.map SchemaField.name) ts)
  | [], acc, ts, himp, _, _ => by
    simp [importAll] at himp
    simp [buildFieldsOD, ← himp]
  | f :: fs, acc, ts, himp, hnodup, hdisj => by
    rw [importAll] at himp
    cases hf : bigquery_field_to_ibis_dtype f with
    | error e => rw [hf] at himp; simp at himp
    | ok t =>
      rw [hf] at himp
      cases hfs : importAll fs with
      | error e => rw [hfs] at himp; simp at himp
      | ok us =>
        rw [hfs] at himp
        simp at himp
        rw [buildFieldsOD, hf]
        simp only [exceptBind_ok]
        have hnotin : ¬ (acc.any (fun p => p.1 = f.name) = true) := by
          simp only [List.any_eq_true, decide_eq_true_eq, not_exists]
          intro p hp
          exact hdisj f (List.mem_cons_self _ _) p hp.1 hp.2
        have hodi : odInsert acc f.name t = acc ++ [(f.name, t)] := by
          simp [odInsert, hnotin]
        rw [hodi]
        have hdisj2 : ∀ g ∈ fs, ∀ p ∈ acc ++ [(f.name, t)],
            p.1 ≠ g.name := by
          intro g hg p hp
          rcases List.mem_append.mp hp with hacc | hone
          · exact hdisj g (List.mem_cons_of_mem _ hg) p hacc
          · have hpe : p = (f.name, t) := by simpa using hone
            subst hpe
            intro he
            have he' : f.name = g.name := he
            apply (List.nodup_cons.mp hnodup).1
            rw [he']
            exact List.mem_map_of_mem SchemaField.name hg
        have hihres := buildFieldsOD_ok fs (acc ++ [(f.name, t)]) us hfs
          (List.nodup_cons.mp hnodup).2 hdisj2
        rw [hihres, ← himp]
        simp [List.zip_cons_cons]

/-- C5 (amended: restricted to descriptors whose declared column names are
pairwise distinct — the source merges duplicate names through its ordered
dict instead of preserving them — and, for the non-partitioned case, to
descriptors with at least one declared column — on a zero-column mapping
`Schema.from_dict` unpacks to a zero-argument `Schema()` call and raises a
`TypeError`): importing a table descriptor that declares time-based
partitioning uses the explicit partition field name if given, else the
fixed `_PARTITIONTIME` sentinel; if that name is not among the declared
columns a trailing `(name, timestamp)` entry is appended, and if it is
already declared nothing is appended and the declared column is unchanged;
a non-partitioned table with at least one declared column yields exactly
the declared columns in declaration order, and a zero-column
non-partitioned table raises the `TypeError`. -/
theorem bigquery_schema_partition_spec (t : BqTable) (ts : List IbisType)
    (himp : importAll t.schema = Except.ok ts)
    (hnodup : (t.schema.map SchemaField.name).Nodup) :
    (t.timePartitioning = Option.none → t.schema ≠ [] →
      bigquery_schema t = Except.ok ⟨t.schema.map SchemaField.name, ts⟩) ∧
    (t.timePartitioning = Option.none → t.schema = [] →
      bigquery_schema t =
        Except.error "Schema() missing required positional arguments") ∧
    (∀ pinfo, t.timePartitioning = some pinfo →
      (pinfo.getD NATIVE_PARTITION_COL ∉ t.schema.map SchemaField.name →
        bigquery_schema t =
          Except.ok
            ⟨t.schema.map SchemaField.name ++ [pinfo.getD NATIVE_PARTITION_COL],
              ts ++ [IbisType.timestamp]⟩) ∧
      (pinfo.getD NATIVE_PARTITION_COL ∈ t.schema.map SchemaField.name →
        bigquery_schema t = Except.ok ⟨t.schema.map SchemaField.name, ts⟩)) := by
  have hlen : (t.schema.map SchemaField.name).length = ts.length := by
    rw [List.length_map, importAll_length himp]
  have hbuild := buildFieldsOD_ok t.schema [] ts himp hnodup
    (by intro f _ p hp; cases hp)
  rw [List.nil_append] at hbuild
  have hfst : (List.zip (t.schema.map SchemaField.name) ts).map Prod.fst =
      t.schema.map SchemaField.name :=
    List.map_fst_zip _ _ (le_of_eq hlen)
  have hsnd : (List.zip (t.schema.map SchemaField.name) ts).map Prod.snd = ts :=
    List.map_snd_zip _ _ (ge_of_eq hlen)
  have hzip_ne : t.schema ≠ [] →
      List.zip (t.schema.map SchemaField.name) ts ≠ [] := by
    intro hschne
    cases hsch : t.schema with
    | nil => exact absurd hsch hschne
    | cons f fs =>
      rw [hsch] at hlen
      have hts : ts ≠ [] := by
        intro hts
        rw [hts] at hlen
        simp at hlen
      obtain ⟨u, us, hus⟩ := List.exists_cons_of_ne_nil hts
      rw [hus]
      simp
  refine ⟨?_, ?_, ?_⟩
  · intro hpart hschne
    rw [bigquery_schema, hbuild]
    simp only [exceptBind_ok, hpart]
    rw [Schema_from_dict_ok (hzip_ne hschne) (by rw [hfst]; exact hnodup)]
    rw [hfst, hsnd]
  · intro hpart hsch
    rw [bigquery_schema, hbuild]
    simp only [exceptBind_ok, hpart]
    rw [hsch]
    simp [Schema_from_dict]
  · intro pinfo hpart
    constructor
    · intro hnot
      rw [bigquery_schema, hbuild]
      simp only [exceptBind_ok, hpart]
      rw [odSetdefault]
      have hcond :
          ¬ ((List.zip (t.schema.map SchemaField.name) ts).any
            (fun p => p.1 = pinfo.getD NATIVE_PARTITION_COL) = true) := by
        simp only [List.any_eq_true, decide_eq_true_eq, not_exists]
        intro p hp
        exact hnot (hp.2 ▸ (List.of_mem_zip hp.1).1)
      rw [if_neg hcond]
      have hnodup2 :
          ((List.zip (t.schema.map SchemaField.name) ts ++
            [(pinfo.getD NATIVE_PARTITION_COL, IbisType.timestamp)]).map
              Prod.fst).Nodup := by
        rw [List.map_append, hfst]
        simp only [List.map_cons, List.map_nil]
        rw [List.nodup_append]
        exact ⟨hnodup, List.nodup_singleton _,
          by intro n hn hmem; rw [List.mem_singleton.mp hmem] at hn; exact hnot hn⟩
      rw [Schema_from_dict_ok (by simp) hnodup2]
      rw [List.map_append, List.map_append, hfst, hsnd]
      simp only [List.map_cons, List.map_nil]
    · intro hmem
      rw [bigquery_schema, hbuild]
      simp only [exceptBind_ok, hpart]
      rw [odSetdefault]
      have hcond :
          (List.zip (t.schema.map SchemaField.name) ts).any
            (fun p => p.1 = pinfo.getD NATIVE_PARTITION_COL) = true := by
        simp only [List.any_eq_true, decide_eq_true_eq]
        obtain ⟨b, hb⟩ := mem_fst_zip_of_mem hmem (le_of_eq hlen)
        exact ⟨_, hb, rfl⟩
      rw [if_pos hcond]
      have hschne : t.schema ≠ [] := by
        intro hs
        rw [hs] at hmem
        simp at hmem
      rw [Schema_from_dict_ok (hzip_ne hschne) (by rw [hfst]; exact hnodup)]
      rw [hfst, hsnd]

theorem bigquery_schema_partition_spec_witness :
    bigquery_schema
        ⟨[SchemaField.mk "id" "INTEGER" "NULLABLE" []], some (some "ts")⟩ =
      Except.ok ⟨["id", "ts"], [IbisType.int64, IbisType.timestamp]⟩ ∧
    bigquery_schema
        ⟨[SchemaField.mk "id" "INTEGER" "NULLABLE" []], some Option.none⟩ =
      Except.ok ⟨["id", "_PARTITIONTIME"],
        [IbisType.int64, IbisType.timestamp]⟩ ∧
    bigquery_schema
        ⟨[SchemaField.mk "id" "INTEGER" "NULLABLE" []], Option.none⟩ =
      Except.ok ⟨["id"], [IbisType.int64]⟩ ∧
    bigquery_schema ⟨[], Option.none⟩ =
      Except.error "Schema() missing required positional arguments" := by
  have himp : importAll [SchemaField.mk "id" "INTEGER" "NULLABLE" []] =
      Except.ok [IbisType.int64] := by
    rw [importAll, bigquery_field_to_ibis_dtype.eq_def, importAll]
    simp [LEGACY_TO_STANDARD, DTYPE_TO_IBIS_TYPE, IbisType.int64]
  refine ⟨?_, ?_, ?_, ?_⟩
  · have h := ((bigquery_schema_partition_spec
      ⟨[SchemaField.mk "id" "INTEGER" "NULLABLE" []], some (some "ts")⟩
      [IbisType.int64] himp (by simp [SchemaField.name])).2.2
      (some "ts") rfl).1 (by simp [SchemaField.name, Option.getD])
    simpa [SchemaField.name, Option.getD] using h
  · have h := ((bigquery_schema_partition_spec
      ⟨[SchemaField.mk "id" "INTEGER" "NULLABLE" []], some Option.none⟩
      [IbisType.int64] himp (by simp [SchemaField.name])).2.2
      Option.none rfl).1
      (by simp [SchemaField.name, Option.getD, NATIVE_PARTITION_COL])
    simpa [SchemaField.name, Option.getD, NATIVE_PARTITION_COL] using h
  · have h := (bigquery_schema_partition_spec
      ⟨[SchemaField.mk "id" "INTEGER" "NULLABLE" []], Option.none⟩
      [IbisType.int64] himp (by simp [SchemaField.name])).1 rfl (by simp)
    simpa [SchemaField.name] using h
  · exact (bigquery_schema_partition_spec ⟨[], Option.none⟩ [] rfl
      (by simp)).2.1 rfl rfl

/-- C5 counterexample: two non-partitioned descriptors on which the schema
is not "exactly the declared columns in declaration order".  First, a
descriptor that declares the column name `a` twice: the source's ordered
dict merges the two declarations (first position, second type), so the
imported schema is `[("a", string)]`, not the two-entry column list.
Second, a descriptor with zero declared columns: `Schema.from_dict` on the
empty mapping unpacks to a zero-argument `Schema()` call and raises a
`TypeError` instead of producing the empty schema. -/
theorem bigquery_schema_dup_counterexample :
    bigquery_schema
        ⟨[SchemaField.mk "a" "INT64" "NULLABLE" [],
          SchemaField.mk "a" "STRING" "NULLABLE" []], Option.none⟩ =
      Except.ok ⟨["a"], [IbisType.string]⟩ ∧
    (SchemaV.names ⟨["a"], [IbisType.string]⟩ ≠
      [SchemaField.mk "a" "INT64" "NULLABLE" [],
        SchemaField.mk "a" "STRING" "NULLABLE" []].map SchemaField.name) ∧
    bigquery_schema ⟨[], Option.none⟩ =
      Except.error "Schema() missing required positional arguments" ∧
    (∀ s, bigquery_schema ⟨[], Option.none⟩ ≠ Except.ok s) := by
  refine ⟨?_, ?_, rfl, ?_⟩
  · simp [bigquery_schema, buildFieldsOD, bigquery_field_to_ibis_dtype.eq_def,
      LEGACY_TO_STANDARD, DTYPE_TO_IBIS_TYPE, odInsert, SchemaField.name,
      Schema_from_dict, Schema_init, IbisType.string, IbisType.int64,
      List.dedup]
  · simp [SchemaField.name]
  · intro s h
    have h2 : bigquery_schema ⟨[], Option.none⟩ =
        Except.error "Schema() missing required positional arguments" := rfl
    rw [h2] at h
    cases h

/-- On an object-dtype column classified `mixed*`, strict inference reduces
to the strict helper, whatever `aggressive_null` is. -/
theorem infer_mixed_strict_eq (dtInfer : PyVal → Except Unit IbisType)
    (hp : List IbisType → Except Unit IbisType)
    (dtypeOf : String → IbisType) (ipd : List PyVal → String)
    (series : PSeries) (an : Bool)
    (hobj : series.dtype = "object")
    (hmixed :
      strStartsWith (ipd (series.values.filter (fun v => ¬ v.isNull)))
        "mixed" = true)
    (hne : series.values.filter (fun v => ¬ v.isNull) ≠ []) :
    infer_ibis_dtypes_from_series dtInfer hp dtypeOf ipd series true an =
      Except.ok
        (infer_strict_helper dtInfer hp
          (series.values.filter (fun v => ¬ v.isNull))) := by
  cases an <;>
    (simp at hmixed hne;
     simp [infer_ibis_dtypes_from_series, hobj, hmixed, hne,
       List.filter_filter])

/-- On an object-dtype column classified `mixed*`, non-strict inference
takes the inferred type of the first non-null value, whatever
`aggressive_null` is. -/
theorem infer_mixed_nonstrict_eq (dtInfer : PyVal → Except Unit IbisType)
    (hp : List IbisType → Except Unit IbisType)
    (dtypeOf : String → IbisType) (ipd : List PyVal → String)
    (series : PSeries) (an : Bool)
    (hobj : series.dtype = "object")
    (hmixed :
      strStartsWith (ipd (series.values.filter (fun v => ¬ v.isNull)))
        "mixed" = true)
    (v : PyVal) (rest : List PyVal)
    (hcons : series.values.filter (fun v => ¬ v.isNull) = v :: rest) :
    infer_ibis_dtypes_from_series dtInfer hp dtypeOf ipd series false an =
      (dtInfer v >>= fun t => pure [t]) := by
  have hne : series.values.filter (fun v => ¬ v.isNull) ≠ [] := by
    rw [hcons]; exact List.cons_ne_nil _ _
  cases an
  · simp at hmixed hne hcons
    simp [infer_ibis_dtypes_from_series, hobj, hmixed, hne,
      List.filter_filter]
    rw [hcons]
  · simp at hmixed hne hcons
    obtain ⟨x, hx, hxnull⟩ := hne
    have hnall : ¬ ∀ a ∈ series.values, a.isNull = true := by
      intro hall
      simp [hall x hx] at hxnull
    simp [infer_ibis_dtypes_from_series, hobj, hmixed, hnall,
      List.filter_filter]
    rw [hcons]

/-- C2 (amended: when `highest_precedence` itself raises a type error on
the deduplicated per-value types, the source's `except: pass` lets the
deduplicated multi-candidate list escape, so the column does not get
"exactly one" candidate in that case): for an object-dtype column whose
non-null values are classified as heterogeneous ("mixed"), with
`strict=true` a per-value type is inferred for every non-null value, the
results are deduplicated and, when `highest_precedence` succeeds, reduced
to exactly one candidate; when `highest_precedence` fails the deduplicated
candidate list itself (possibly with two or more entries) is returned; any
per-value inference failure yields zero candidates; with `strict=false`
the column's single candidate is the inferred type of the first non-null
value (an inference failure on that value propagates as an exception). -/
theorem mixed_object_inference_spec (dtInfer : PyVal → Except Unit IbisType)
    (hp : List IbisType → Except Unit IbisType)
    (dtypeOf : String → IbisType) (ipd : List PyVal → String)
    (series : PSeries) (an : Bool)
    (hobj : series.dtype = "object")
    (hmixed :
      strStartsWith (ipd (series.values.filter (fun v => ¬ v.isNull)))
        "mixed" = true) :
    (∀ ts, (series.values.filter (fun v => ¬ v.isNull)).mapM dtInfer =
        Except.ok ts →
      series.values.filter (fun v => ¬ v.isNull) ≠ [] →
      (∀ u, hp (pdUnique ts) = Except.ok u →
        infer_ibis_dtypes_from_series dtInfer hp dtypeOf ipd series true an =
          Except.ok [u]) ∧
      (hp (pdUnique ts) = Except.error () →
        infer_ibis_dtypes_from_series dtInfer hp dtypeOf ipd series true an =
          Except.ok (pdUnique ts))) ∧
    ((series.values.filter (fun v => ¬ v.isNull)).mapM dtInfer =
        Except.error () →
      series.values.filter (fun v => ¬ v.isNull) ≠ [] →
      infer_ibis_dtypes_from_series dtInfer hp dtypeOf ipd series true an =
        Except.ok []) ∧
    (∀ v rest, series.values.filter (fun v => ¬ v.isNull) = v :: rest →
      (∀ u, dtInfer v = Except.ok u →
        infer_ibis_dtypes_from_series dtInfer hp dtypeOf ipd series false an =
          Except.ok [u]) ∧
      (dtInfer v = Except.error () →
        infer_ibis_dtypes_from_series dtInfer hp dtypeOf ipd series false an =
          Except.error ())) := by
  refine ⟨?_, ?_, ?_⟩
  · intro ts hts hne
    rw [infer_mixed_strict_eq dtInfer hp dtypeOf ipd series an hobj hmixed hne]
    constructor
    · intro u hu
      rw [infer_strict_helper, hts]
      simp [hu]
    · intro hu
      rw [infer_strict_helper, hts]
      simp [hu]
  · intro hts hne
    rw [infer_mixed_strict_eq dtInfer hp dtypeOf ipd series an hobj hmixed hne]
    rw [infer_strict_helper, hts]
  · intro v rest hcons
    rw [infer_mixed_nonstrict_eq dtInfer hp dtypeOf ipd series an hobj hmixed
      v rest hcons]
    constructor
    · intro u hu
      rw [hu]
      rfl
    · intro hu
      rw [hu]
      rfl

/-- A concrete `dt.infer`: integers are int64, strings are string,
everything else fails. -/
def exInfer : PyVal → Except Unit IbisType
  | .int _ => Except.ok .int64
  | .str _ => Except.ok .string
  | _ => Except.error ()

/-- A concrete `highest_precedence` that, like the spec's, fails with a
type error on kinds with no common supertype — here on every list that is
not a singleton. -/
def exHp : List IbisType → Except Unit IbisType
  | [t] => Except.ok t
  | _ => Except.error ()

/-- A concrete `highest_precedence` that always succeeds, unifying to
int64. -/
def exHpOk : List IbisType → Except Unit IbisType :=
  fun _ => Except.ok .int64

/-- A concrete runtime-value sniffer that reports heterogeneous content. -/
def exIpd : List PyVal → String := fun _ => "mixed"

/-- A concrete machine-dtype mapping (irrelevant on the object path). -/
def exDtypeOf : String → IbisType := fun _ => .null

theorem mixed_object_inference_spec_witness :
    infer_ibis_dtypes_from_series exInfer exHpOk exDtypeOf exIpd
        ⟨"object", [PyVal.int 1, PyVal.str "x"]⟩ true true =
      Except.ok [IbisType.int64] ∧
    infer_ibis_dtypes_from_series exInfer exHp exDtypeOf exIpd
        ⟨"object", [PyVal.int 1, PyVal.none]⟩ false true =
      Except.ok [IbisType.int64] ∧
    infer_ibis_dtypes_from_series exInfer exHp exDtypeOf exIpd
        ⟨"object", [PyVal.bool true, PyVal.int 1]⟩ true true =
      Except.ok [] := by
  refine ⟨?_, ?_, ?_⟩
  · have h := ((mixed_object_inference_spec exInfer exHpOk exDtypeOf exIpd
      ⟨"object", [PyVal.int 1, PyVal.str "x"]⟩ true rfl (by decide)).1
      [IbisType.int64, IbisType.string] (by rfl) (by simp [PyVal.isNull])).1
      IbisType.int64 rfl
    simpa [PyVal.isNull] using h
  · have h := ((mixed_object_inference_spec exInfer exHp exDtypeOf exIpd
      ⟨"object", [PyVal.int 1, PyVal.none]⟩ true rfl (by decide)).2.2
      (PyVal.int 1) [] (by simp [PyVal.isNull])).1 IbisType.int64 rfl
    simpa [PyVal.isNull] using h
  · have h := (mixed_object_inference_spec exInfer exHp exDtypeOf exIpd
      ⟨"object", [PyVal.bool true, PyVal.int 1]⟩ true rfl (by decide)).2.1
      (by rfl) (by simp [PyVal.isNull])
    simpa [PyVal.isNull] using h

/-- C2 counterexample: a strict mixed column on which every per-value
inference succeeds (`[int 1, str "x"]` gives `[int64, string]`) but
`highest_precedence` raises a type error; the source's `except: pass`
then returns the two-element deduplicated list, so the column has two
candidates — neither "exactly one" nor zero as the claim requires. -/
theorem mixed_object_inference_counterexample :
    [PyVal.int 1, PyVal.str "x"].mapM exInfer =
      Except.ok [IbisType.int64, IbisType.string] ∧
    infer_ibis_dtypes_from_series exInfer exHp exDtypeOf exIpd
        ⟨"object", [PyVal.int 1, PyVal.str "x"]⟩ true true =
      Except.ok [IbisType.int64, IbisType.string] ∧
    ¬ ∃ u, infer_ibis_dtypes_from_series exInfer exHp exDtypeOf exIpd
        ⟨"object", [PyVal.int 1, PyVal.str "x"]⟩ true true =
      Except.ok [u] := by
  refine ⟨by rfl, by rfl, ?_⟩
  intro ⟨u, hu⟩
  have h2 : infer_ibis_dtypes_from_series exInfer exHp exDtypeOf exIpd
      ⟨"object", [PyVal.int 1, PyVal.str "x"]⟩ true true =
      Except.ok [IbisType.int64, IbisType.string] := rfl
  rw [h2] at hu
  simp [IbisType.int64, IbisType.string] at hu

/-- C6 (amended: when every column yields exactly one candidate, the
`Schema` is returned provided the column names are pairwise distinct — a
frame with a duplicated column name instead raises the schema-integrity
error): schema inference classifies every column before failing; if any
column yields zero candidates or two-or-more candidates, it raises exactly
one combined type-inference error carrying every zero-candidate column and
every ambiguous column with its candidate types, rather than failing on the
first bad column; if every column yields exactly one candidate (and names
are distinct) the `Schema` of the `(column, type)` pairs is returned. -/
theorem infer_pandas_schema_spec (dtInfer : PyVal → Except Unit IbisType)
    (hp : List IbisType → Except Unit IbisType)
    (dtypeOf : String → IbisType) (ipd : List PyVal → String)
    (df : List (String × PSeries)) (strict an : Bool)
    (pairs : List (String × List IbisType))
    (hc : classifyColumns dtInfer hp dtypeOf ipd df strict an =
      Except.ok pairs) :
    ((noneCols pairs ≠ [] ∨ multiCols pairs ≠ []) →
      infer_pandas_schema dtInfer hp dtypeOf ipd df strict an =
        Except.error
          (InferenceFailure.combined (noneCols pairs) (multiCols pairs))) ∧
    (noneCols pairs = [] → multiCols pairs = [] →
      ((goodPairs pairs).map Prod.fst).Nodup →
      infer_pandas_schema dtInfer hp dtypeOf ipd df strict an =
        Except.ok
          ⟨(goodPairs pairs).map Prod.fst, (goodPairs pairs).map Prod.snd⟩) ∧
    (∀ c ds, (c, ds) ∈ pairs → ds = [] → c ∈ noneCols pairs) ∧
    (∀ c ds, (c, ds) ∈ pairs → 1 < ds.length → (c, ds) ∈ multiCols pairs) := by
  refine ⟨?_, ?_, ?_, ?_⟩
  · intro hbad
    simp only [infer_pandas_schema, hc]
    have hcond : ¬ (noneCols pairs).isEmpty = true ∨
        ¬ (multiCols pairs).isEmpty = true := by
      rcases hbad with h | h
      · exact Or.inl (by simpa [List.isEmpty_iff] using h)
      · exact Or.inr (by simpa [List.isEmpty_iff] using h)
    rw [if_pos hcond]
  · intro hnc hmc hnodup
    simp only [infer_pandas_schema, hc]
    have hcond : ¬ (¬ (noneCols pairs).isEmpty = true ∨
        ¬ (multiCols pairs).isEmpty = true) := by
      simp [List.isEmpty_iff, hnc, hmc]
    rw [if_neg hcond]
    rw [Schema_from_tuples, Schema_init_ok hnodup]
  · intro c ds hmem hds
    exact List.mem_map.mpr
      ⟨(c, ds), List.mem_filter.mpr ⟨hmem, by simp [hds]⟩, rfl⟩
  · intro c ds hmem hlen
    exact List.mem_filter.mpr ⟨hmem, by simpa using hlen⟩

theorem infer_pandas_schema_spec_witness :
    infer_pandas_schema exInfer exHp exDtypeOf exIpd
        [("good", ⟨"int64", [PyVal.int 1]⟩),
         ("undec", ⟨"object", [PyVal.pdate ⟨2020, 1, 1⟩]⟩),
         ("both", ⟨"object", [PyVal.int 1, PyVal.str "x"]⟩)] true true =
      Except.error
        (InferenceFailure.combined ["undec"]
          [("both", [IbisType.int64, IbisType.string])]) ∧
    infer_pandas_schema exInfer exHp exDtypeOf exIpd
        [("a", ⟨"int64", [PyVal.int 1]⟩), ("b", ⟨"int64", [PyVal.int 2]⟩)]
        true true =
      Except.ok ⟨["a", "b"], [IbisType.null, IbisType.null]⟩ := by
  constructor
  · have h := (infer_pandas_schema_spec exInfer exHp exDtypeOf exIpd
      [("good", ⟨"int64", [PyVal.int 1]⟩),
       ("undec", ⟨"object", [PyVal.pdate ⟨2020, 1, 1⟩]⟩),
       ("both", ⟨"object", [PyVal.int 1, PyVal.str "x"]⟩)] true true
      [("good", [IbisType.null]), ("undec", []),
       ("both", [IbisType.int64, IbisType.string])] rfl).1
      (Or.inl (by decide))
    exact h
  · have h := (infer_pandas_schema_spec exInfer exHp exDtypeOf exIpd
      [("a", ⟨"int64", [PyVal.int 1]⟩), ("b", ⟨"int64", [PyVal.int 2]⟩)]
      true true [("a", [IbisType.null]), ("b", [IbisType.null])] rfl).2.1
      rfl rfl (by decide)
    exact h

/-- C6 counterexample: a frame whose two columns are both named `a` and
both classify to exactly one candidate; the claim would have the `Schema`
of the pairs returned, but `Schema` construction raises the
duplicate-column-names integrity error instead. -/
theorem infer_pandas_schema_dup_counterexample :
    classifyColumns exInfer exHp exDtypeOf exIpd
        [("a", ⟨"int64", [PyVal.int 1]⟩), ("a", ⟨"int64", [PyVal.int 2]⟩)]
        true true =
      Except.ok [("a", [IbisType.null]), ("a", [IbisType.null])] ∧
    infer_pandas_schema exInfer exHp exDtypeOf exIpd
        [("a", ⟨"int64", [PyVal.int 1]⟩), ("a", ⟨"int64", [PyVal.int 2]⟩)]
        true true =
      Except.error (InferenceFailure.integrity "Duplicate column names") ∧
    ∀ s, infer_pandas_schema exInfer exHp exDtypeOf exIpd
        [("a", ⟨"int64", [PyVal.int 1]⟩), ("a", ⟨"int64", [PyVal.int 2]⟩)]
        true true ≠ Except.ok s := by
  refine ⟨rfl, rfl, ?_⟩
  intro s h
  have h2 : infer_pandas_schema exInfer exHp exDtypeOf exIpd
      [("a", ⟨"int64", [PyVal.int 1]⟩), ("a", ⟨"int64", [PyVal.int 2]⟩)]
      true true =
      Except.error (InferenceFailure.integrity "Duplicate column names") := rfl
  rw [h2] at h
  cases h

/-- A successful binding carries the parameter's resolved name. -/
theorem bigquery_param_name :
    ∀ (p : Param) (v : PyVal) (r : BoundParameter),
      bigquery_param p v = Except.ok r → r.paramName = p.name := by
  intro p v
  induction p, v using bigquery_param.induct
  case motive2 ns ts ks =>
    exact ∀ cs, bq_struct_fields ns ts ks = Except.ok cs →
      cs.map BoundParameter.paramName = ks.map Prod.fst
  all_goals intro r h
  case case1 q ns ts ks hty ih =>
    rw [bigquery_param.eq_def, hty] at h
    simp only [] at h
    cases hbs : bq_struct_fields ns ts ks with
    | error e => rw [hbs] at h; simp at h
    | ok cs =>
      rw [hbs] at h
      simp at h
      rw [← h]
      rfl
  case case17 ns ts =>
    rw [bq_struct_fields.eq_def] at h
    simp only [] at h
    simp at h
    simp [← h]
  case case18 ns ts k vk rest t hlook ih2 ih1 =>
    rw [bq_struct_fields.eq_def] at h
    simp only [] at h
    rw [hlook] at h
    simp only [] at h
    cases hc : bigquery_param ⟨k, t⟩ vk with
    | error e => rw [hc] at h; simp at h
    | ok c =>
      rw [hc] at h
      cases hrest : bq_struct_fields ns ts rest with
      | error e => rw [hrest] at h; simp at h
      | ok cs =>
        rw [hrest] at h
        simp at h
        rw [← h]
        simp only [List.map_cons]
        rw [ih2 c hc, ih1 cs hrest]
  case case19 ns ts k vk rest hlook =>
    rw [bq_struct_fields.eq_def] at h
    simp only [] at h
    rw [hlook] at h
    simp at h
  all_goals try (rw [bigquery_param.eq_def] at h; first
    | (simp_all [BoundParameter.paramName]; subst h; rfl)
    | simp_all [BoundParameter.paramName])

/-- Evaluation of the string rule. -/
theorem bq_param_string_eval (nm s : String) :
    bigquery_param ⟨nm, IbisType.string⟩ (PyVal.str s) =
      Except.ok (BoundParameter.scalar nm "STRING" (PyVal.str s)) := by
  rw [bigquery_param.eq_def]
  rfl

/-- Evaluation of the integer rule. -/
theorem bq_param_integer_eval (nm : String) (n : Int) :
    bigquery_param ⟨nm, IbisType.int64⟩ (PyVal.int n) =
      Except.ok (BoundParameter.scalar nm "INT64" (PyVal.int n)) := by
  rw [bigquery_param.eq_def]
  rfl

/-- Evaluation of the boolean rule. -/
theorem bq_param_boolean_eval (nm : String) (b : Bool) :
    bigquery_param ⟨nm, IbisType.boolean⟩ (PyVal.bool b) =
      Except.ok (BoundParameter.scalar nm "BOOL" (PyVal.bool b)) := by
  rw [bigquery_param.eq_def]
  rfl

/-- Evaluation of the terminal date rule (`bq_param_date`). -/
theorem bq_param_date_eval (nm : String) (d : PDate) :
    bigquery_param ⟨nm, IbisType.date⟩ (PyVal.pdate d) =
      Except.ok (BoundParameter.scalar nm "DATE" (PyVal.pdate d)) := by
  rw [bigquery_param.eq_def]
  rfl

/-- Evaluation of the datetime-to-date rule (`bq_param_date_datetime`): it
re-dispatches on the value's date portion. -/
theorem bq_param_date_datetime_eval (nm : String) (dtv : PDatetime) :
    bigquery_param ⟨nm, IbisType.date⟩ (PyVal.pdatetime dtv) =
      bigquery_param ⟨nm, IbisType.date⟩ (PyVal.pdate dtv.date) := by
  rw [bigquery_param.eq_def]
  rfl

/-- Evaluation of the date-string rule (`bq_param_date_string`) on a
parseable string: it re-dispatches on the parsed value's date portion. -/
theorem bq_param_date_string_eval (nm s : String) (dtv : PDatetime)
    (hparse : parseTimestampString s = some dtv) :
    bigquery_param ⟨nm, IbisType.date⟩ (PyVal.str s) =
      bigquery_param ⟨nm, IbisType.date⟩ (PyVal.pdate dtv.date) := by
  rw [bigquery_param.eq_def]
  simp only [IbisType.date]
  rw [hparse]

/-- Evaluation of the array rule when the element type has a wire form. -/
theorem bq_param_array_eval (nm : String) (elemT : IbisType)
    (vs : List PyVal) (tag : String)
    (h : IBIS_TYPE_TO_DTYPE (ibisTypeName elemT) = some tag) :
    bigquery_param ⟨nm, IbisType.array elemT⟩ (PyVal.plist vs) =
      Except.ok (BoundParameter.arrayParam nm tag vs) := by
  rw [bigquery_param.eq_def]
  simp only [IbisType.array]
  rw [h]
  rfl

/-- Evaluation of the array rule when the element type has no wire form:
the error is `UnsupportedBackendType` applied to the array type. -/
theorem bq_param_array_unsupported_eval (nm : String) (elemT : IbisType)
    (vs : List PyVal)
    (h : IBIS_TYPE_TO_DTYPE (ibisTypeName elemT) = Option.none) :
    bigquery_param ⟨nm, IbisType.array elemT⟩ (PyVal.plist vs) =
      Except.error (BqParamError.unsupportedBackendType (IbisType.array elemT)) := by
  rw [bigquery_param.eq_def]
  simp only [IbisType.array]
  rw [h]

/-- Evaluation of the struct rule given the children. -/
theorem bq_param_struct_eval (nm : String) (ns : List String)
    (ts : List IbisType) (kvs : List (String × PyVal))
    (cs : List BoundParameter)
    (h : bq_struct_fields ns ts kvs = Except.ok cs) :
    bigquery_param ⟨nm, IbisType.structT ns ts⟩ (PyVal.odict kvs) =
      Except.ok (BoundParameter.structParam nm cs) := by
  rw [bigquery_param.eq_def]
  simp only []
  rw [h]
  rfl

/-- Evaluation of `bq_struct_fields` on the empty mapping. -/
theorem bq_struct_fields_nil_eval (ns : List String) (ts : List IbisType) :
    bq_struct_fields ns ts [] = Except.ok [] := by
  rw [bq_struct_fields.eq_def]
  rfl

/-- Evaluation of `bq_struct_fields` on a mapping item whose key is a
declared field. -/
theorem bq_struct_fields_cons_eval (ns : List String) (ts : List IbisType)
    (k : String) (vk : PyVal) (rest : List (String × PyVal)) (t : IbisType)
    (hlook : structFieldLookup ns ts k = some t) :
    bq_struct_fields ns ts ((k, vk) :: rest) =
      (do
        let c ← bigquery_param ⟨k, t⟩ vk
        let cs ← bq_struct_fields ns ts rest
        pure (c :: cs)) := by
  rw [bq_struct_fields.eq_def]
  simp only []
  rw [hlook]

/-- Children of a successful struct binding carry the mapping's keys, in
the mapping's iteration order. -/
theorem bq_struct_fields_names (ns : List String) (ts : List IbisType) :
    ∀ (ks : List (String × PyVal)) (cs : List BoundParameter),
      bq_struct_fields ns ts ks = Except.ok cs →
      cs.map BoundParameter.paramName = ks.map Prod.fst := by
  intro ks
  induction ks with
  | nil =>
    intro cs h
    rw [bq_struct_fields_nil_eval] at h
    simp at h
    simp [← h]
  | cons kv rest ih =>
    intro cs h
    obtain ⟨k, vk⟩ := kv
    rw [bq_struct_fields.eq_def] at h
    simp only [] at h
    cases hlook : structFieldLookup ns ts k with
    | none => rw [hlook] at h; simp at h
    | some t =>
      rw [hlook] at h
      simp only [] at h
      cases hc : bigquery_param ⟨k, t⟩ vk with
      | error e => rw [hc] at h; simp at h
      | ok c =>
        rw [hc] at h
        cases hrest : bq_struct_fields ns ts rest with
        | error e => rw [hrest] at h; simp at h
        | ok cs2 =>
          rw [hrest] at h
          simp at h
          rw [← h]
          simp only [List.map_cons]
          rw [bigquery_param_name ⟨k, t⟩ vk c hc, ih cs2 hrest]

/-- C3 (amended: the composite's children appear in the INPUT MAPPING's
iteration order — which coincides with the declared field order only when
the mapping is supplied in that order — not in the struct's declared field
order): binding a Struct-typed parameter to an ordered mapping binds each
item recursively by looking the sub-parameter up by field name, in the
mapping's iteration order, and produces a composite `BoundParameter`
whose children carry the mapping's keys in that same order. -/
theorem bq_param_struct_spec (nm : String) (ns : List String)
    (ts : List IbisType) (kvs : List (String × PyVal)) :
    (bigquery_param ⟨nm, IbisType.structT ns ts⟩ (PyVal.odict kvs) =
      (bq_struct_fields ns ts kvs).map
        (fun cs => BoundParameter.structParam nm cs)) ∧
    (bq_struct_fields ns ts kvs = kvs.mapM (fun kv =>
      match structFieldLookup ns ts kv.1 with
      | some t => bigquery_param ⟨kv.1, t⟩ kv.2
      | Option.none => Except.error (BqParamError.keyError kv.1))) ∧
    (∀ cs, bq_struct_fields ns ts kvs = Except.ok cs →
      cs.map BoundParameter.paramName = kvs.map Prod.fst ∧
      cs.length = kvs.length) := by
  refine ⟨?_, ?_, ?_⟩
  · cases hbs : bq_struct_fields ns ts kvs with
    | error e =>
      rw [bigquery_param.eq_def]
      simp only []
      rw [hbs]
      rfl
    | ok cs =>
      rw [bq_param_struct_eval nm ns ts kvs cs hbs]
      simp [hbs]
  · induction kvs with
    | nil =>
      rw [bq_struct_fields_nil_eval, List.mapM_nil]
      rfl
    | cons kv rest ih =>
      obtain ⟨k, vk⟩ := kv
      rw [bq_struct_fields.eq_def]
      simp only []
      rw [List.mapM_cons, ← ih]
      cases hlook : structFieldLookup ns ts k with
      | none => rfl
      | some t => rfl
  · intro cs h
    refine ⟨bq_struct_fields_names ns ts kvs cs h, ?_⟩
    have := congrArg List.length (bq_struct_fields_names ns ts kvs cs h)
    simpa using this

theorem bq_param_struct_spec_witness :
    bigquery_param
        ⟨"p", IbisType.structT ["a", "b"] [IbisType.int64, IbisType.string]⟩
        (PyVal.odict [("a", PyVal.int 1), ("b", PyVal.str "x")]) =
      Except.ok
        (BoundParameter.structParam "p"
          [BoundParameter.scalar "a" "INT64" (PyVal.int 1),
           BoundParameter.scalar "b" "STRING" (PyVal.str "x")]) := by
  have hf : bq_struct_fields ["a", "b"] [IbisType.int64, IbisType.string]
      [("a", PyVal.int 1), ("b", PyVal.str "x")] =
      Except.ok [BoundParameter.scalar "a" "INT64" (PyVal.int 1),
        BoundParameter.scalar "b" "STRING" (PyVal.str "x")] := by
    rw [bq_struct_fields_cons_eval _ _ _ _ _ IbisType.int64 (by rfl)]
    rw [bq_param_integer_eval]
    rw [exceptBind_ok]
    rw [bq_struct_fields_cons_eval _ _ _ _ _ IbisType.string
      (by simp [structFieldLookup])]
    rw [bq_param_string_eval]
    rw [exceptBind_ok]
    rw [bq_struct_fields_nil_eval]
    rfl
  have h := (bq_param_struct_spec "p" ["a", "b"]
    [IbisType.int64, IbisType.string]
    [("a", PyVal.int 1), ("b", PyVal.str "x")]).1
  rw [hf] at h
  exact h

/-- C3 counterexample: binding `Struct(a: int64, b: string)` to the ordered
mapping `[b ↦ "x", a ↦ 1]` produces children in the mapping's iteration
order `[b, a]`, not in the struct's declared field order `[a, b]`. -/
theorem bq_param_struct_counterexample :
    bigquery_param
        ⟨"p", IbisType.structT ["a", "b"] [IbisType.int64, IbisType.string]⟩
        (PyVal.odict [("b", PyVal.str "x"), ("a", PyVal.int 1)]) =
      Except.ok
        (BoundParameter.structParam "p"
          [BoundParameter.scalar "b" "STRING" (PyVal.str "x"),
           BoundParameter.scalar "a" "INT64" (PyVal.int 1)]) ∧
    [BoundParameter.scalar "b" "STRING" (PyVal.str "x"),
      BoundParameter.scalar "a" "INT64" (PyVal.int 1)].map
        BoundParameter.paramName ≠ ["a", "b"] := by
  constructor
  · have hf : bq_struct_fields ["a", "b"] [IbisType.int64, IbisType.string]
        [("b", PyVal.str "x"), ("a", PyVal.int 1)] =
        Except.ok [BoundParameter.scalar "b" "STRING" (PyVal.str "x"),
          BoundParameter.scalar "a" "INT64" (PyVal.int 1)] := by
      rw [bq_struct_fields_cons_eval _ _ _ _ _ IbisType.string
        (by simp [structFieldLookup])]
      rw [bq_param_string_eval]
      rw [exceptBind_ok]
      rw [bq_struct_fields_cons_eval _ _ _ _ _ IbisType.int64 (by rfl)]
      rw [bq_param_integer_eval]
      rw [exceptBind_ok]
      rw [bq_struct_fields_nil_eval]
      rfl
    exact bq_param_struct_eval "p" _ _ _ _ hf
  · simp [BoundParameter.paramName]

/-- C7 (amended: the UnsupportedType-kind error carries the ARRAY type —
which exhibits the element type inside it — not the bare element type):
binding an Array-typed parameter to a sequence of values produces, when
the element type is one of the representable primitive kinds (string,
int64, double, boolean, timestamp, date), one `BoundParameter` carrying
the whole sequence tagged with the element's wire type; otherwise it
fails with the unsupported-backend-type error applied to the array
type. -/
theorem bq_param_array_spec (nm : String) (elemT : IbisType)
    (vs : List PyVal) :
    (∀ tag, IBIS_TYPE_TO_DTYPE (ibisTypeName elemT) = some tag →
      bigquery_param ⟨nm, IbisType.array elemT⟩ (PyVal.plist vs) =
        Except.ok (BoundParameter.arrayParam nm tag vs)) ∧
    (IBIS_TYPE_TO_DTYPE (ibisTypeName elemT) = Option.none →
      bigquery_param ⟨nm, IbisType.array elemT⟩ (PyVal.plist vs) =
        Except.error
          (BqParamError.unsupportedBackendType (IbisType.array elemT))) ∧
    (elemT ∈ ([IbisType.string, IbisType.int64, IbisType.double,
        IbisType.boolean, IbisType.timestamp, IbisType.date] :
          List IbisType) →
      ∃ tag, IBIS_TYPE_TO_DTYPE (ibisTypeName elemT) = some tag) := by
  refine ⟨?_, ?_, ?_⟩
  · intro tag h
    exact bq_param_array_eval nm elemT vs tag h
  · intro h
    exact bq_param_array_unsupported_eval nm elemT vs h
  · intro hmem
    simp only [List.mem_cons, List.not_mem_nil, or_false] at hmem
    rcases hmem with rfl | rfl | rfl | rfl | rfl | rfl
    · exact ⟨"STRING", rfl⟩
    · exact ⟨"INT64", rfl⟩
    · exact ⟨"FLOAT64", rfl⟩
    · exact ⟨"BOOL", rfl⟩
    · exact ⟨"TIMESTAMP", rfl⟩
    · exact ⟨"DATE", rfl⟩

theorem bq_param_array_spec_witness :
    bigquery_param ⟨"p", IbisType.array IbisType.string⟩
        (PyVal.plist [PyVal.str "x", PyVal.str "y"]) =
      Except.ok
        (BoundParameter.arrayParam "p" "STRING"
          [PyVal.str "x", PyVal.str "y"]) ∧
    bigquery_param ⟨"p", IbisType.array IbisType.time⟩ (PyVal.plist []) =
      Except.error
        (BqParamError.unsupportedBackendType
          (IbisType.array IbisType.time)) := by
  constructor
  · exact (bq_param_array_spec "p" IbisType.string
      [PyVal.str "x", PyVal.str "y"]).1 "STRING" rfl
  · exact (bq_param_array_spec "p" IbisType.time []).2.1 rfl

/-- C7 counterexample: for element type `time` the binding fails with the
unsupported-backend-type error carrying the array type `array<time>`, not
the element type `time`. -/
theorem bq_param_array_counterexample :
    bigquery_param ⟨"p", IbisType.array IbisType.time⟩ (PyVal.plist []) =
      Except.error
        (BqParamError.unsupportedBackendType
          (IbisType.array IbisType.time)) ∧
    IbisType.array IbisType.time ≠ IbisType.time := by
  constructor
  · exact bq_param_array_unsupported_eval "p" IbisType.time [] rfl
  · simp [IbisType.time]

/-- Trace of the terminal date rule. -/
theorem bq_trace_date_eval (nm : String) (d : PDate) :
    bqDispatchTrace ⟨nm, IbisType.date⟩ (PyVal.pdate d) =
      ["bq_param_date"] := by
  rw [bqDispatchTrace.eq_def]
  rfl

/-- Trace of the date-string rule on a parseable string: it re-dispatches
on the date portion of the parsed value. -/
theorem bq_trace_date_string_eval (nm s : String) (dtv : PDatetime)
    (hparse : parseTimestampString s = some dtv) :
    bqDispatchTrace ⟨nm, IbisType.date⟩ (PyVal.str s) =
      "bq_param_date_string" ::
        bqDispatchTrace ⟨nm, IbisType.date⟩ (PyVal.pdate dtv.date) := by
  rw [bqDispatchTrace.eq_def]
  simp only [IbisType.date]
  rw [hparse]

/-- Trace of the datetime rule: it re-dispatches on the date portion. -/
theorem bq_trace_date_datetime_eval (nm : String) (dtv : PDatetime) :
    bqDispatchTrace ⟨nm, IbisType.date⟩ (PyVal.pdatetime dtv) =
      "bq_param_date_datetime" ::
        bqDispatchTrace ⟨nm, IbisType.date⟩ (PyVal.pdate dtv.date) := by
  rw [bqDispatchTrace.eq_def]
  rfl

/-- C8 (amended: the string rule reduces the parsed value to its date
portion inline and re-dispatches DIRECTLY to the Date+date rule, without
passing through the datetime rule; the datetime rule takes the date
portion and re-dispatches to the Date+date rule): binding a Date-typed
parameter to a parseable date string, to a datetime carrying that date
with any time-of-day component, and to the date value itself all produce
the identical final `BoundParameter` with wire tag DATE and that date as
the value. -/
theorem bq_param_date_normalization_spec (nm s : String) (dtv : PDatetime)
    (hparse : parseTimestampString s = some dtv) :
    (bigquery_param ⟨nm, IbisType.date⟩ (PyVal.str s) =
      Except.ok (BoundParameter.scalar nm "DATE" (PyVal.pdate dtv.date))) ∧
    (∀ hh mm ss, bigquery_param ⟨nm, IbisType.date⟩
        (PyVal.pdatetime ⟨dtv.date, hh, mm, ss⟩) =
      Except.ok (BoundParameter.scalar nm "DATE" (PyVal.pdate dtv.date))) ∧
    (bigquery_param ⟨nm, IbisType.date⟩ (PyVal.pdate dtv.date) =
      Except.ok (BoundParameter.scalar nm "DATE" (PyVal.pdate dtv.date))) ∧
    (bqDispatchTrace ⟨nm, IbisType.date⟩ (PyVal.str s) =
      ["bq_param_date_string", "bq_param_date"]) ∧
    (∀ hh mm ss, bqDispatchTrace ⟨nm, IbisType.date⟩
        (PyVal.pdatetime ⟨dtv.date, hh, mm, ss⟩) =
      ["bq_param_date_datetime", "bq_param_date"]) ∧
    ("bq_param_date_datetime" ∉
      bqDispatchTrace ⟨nm, IbisType.date⟩ (PyVal.str s)) := by
  refine ⟨?_, ?_, ?_, ?_, ?_, ?_⟩
  · rw [bq_param_date_string_eval nm s dtv hparse, bq_param_date_eval]
  · intro hh mm ss
    rw [bq_param_date_datetime_eval]
    exact bq_param_date_eval nm dtv.date
  · exact bq_param_date_eval nm dtv.date
  · rw [bq_trace_date_string_eval nm s dtv hparse, bq_trace_date_eval]
  · intro hh mm ss
    rw [bq_trace_date_datetime_eval]
    rw [bq_trace_date_eval]
  · rw [bq_trace_date_string_eval nm s dtv hparse, bq_trace_date_eval]
    simp

theorem bq_param_date_normalization_spec_witness :
    bigquery_param ⟨"p", IbisType.date⟩ (PyVal.str "2020-01-02") =
      Except.ok
        (BoundParameter.scalar "p" "DATE" (PyVal.pdate ⟨2020, 1, 2⟩)) ∧
    bigquery_param ⟨"p", IbisType.date⟩
        (PyVal.pdatetime ⟨⟨2020, 1, 2⟩, 5, 0, 0⟩) =
      Except.ok
        (BoundParameter.scalar "p" "DATE" (PyVal.pdate ⟨2020, 1, 2⟩)) ∧
    bigquery_param ⟨"p", IbisType.date⟩ (PyVal.pdate ⟨2020, 1, 2⟩) =
      Except.ok
        (BoundParameter.scalar "p" "DATE" (PyVal.pdate ⟨2020, 1, 2⟩)) := by
  have h := bq_param_date_normalization_spec "p" "2020-01-02"
    ⟨⟨2020, 1, 2⟩, 0, 0, 0⟩ rfl
  exact ⟨h.1, h.2.1 5 0 0, h.2.2.1⟩

/-- C8 counterexample: the dispatch chain for binding a Date-typed
parameter to the string `"2020-01-02"` is
`bq_param_date_string → bq_param_date`; the datetime rule
(`bq_param_date_datetime`) is never invoked, contrary to the claim that
the string is re-dispatched through the datetime rule. -/
theorem bq_param_date_trace_counterexample :
    bqDispatchTrace ⟨"p", IbisType.date⟩ (PyVal.str "2020-01-02") =
      ["bq_param_date_string", "bq_param_date"] ∧
    "bq_param_date_datetime" ∉
      bqDispatchTrace ⟨"p", IbisType.date⟩ (PyVal.str "2020-01-02") := by
  have h := bq_trace_date_string_eval "p" "2020-01-02"
    ⟨⟨2020, 1, 2⟩, 0, 0, 0⟩ rfl
  rw [bq_trace_date_eval] at h
  refine ⟨h, ?_⟩
  rw [h]
  simp

end IbisSpec
